import Mathlib

/-!
Verification development for `reddit_upvotes_dl.py`.

The Python program is shallowly embedded as executable Lean definitions:

* pure helpers (`url.split('/')[-1]`, substring tests, the `subreddits.json`
  inversion, post filtering, the `_copy` collision loop) become pure functions;
* the effectful discovery loop (`App.grab_links` calling
  `RedditScraper.get_posts`, `parse_posts`, `image_exists` and
  `App.get_imgur_links`) becomes a fuel-indexed loop over an environment
  `Env` that supplies, per iteration, the HTTP response of the listing fetch
  (`Env.pages`), the anchors found on an album page or `none` when that fetch
  or parse raises (`Env.album`), and the `os.path.isfile` oracle
  (`Env.isfile`); exceptions become `Except` / `Option` values;
* the download phase (`DownloadWorker.run` threads plus the reporting loop of
  `App.run`) becomes a small-step interleaving relation `Step` on `SysState`,
  one constructor per atomic action of the Python code (the `queue.empty()`
  test, the blocking `queue.get()` plus the download and the result `put`,
  the `workers_alive()` test, the blocking `status_queue.get()` plus report).
-/

deriving instance DecidableEq for Except

/-! ## String helpers -/

/-- Split a character list at every occurrence of `c`; model of Python
`str.split(c)` for a one-character separator (`"".split(c) == ['']`,
adjacent separators yield empty pieces). -/
def splitOnChar (c : Char) : List Char → List (List Char)
  | [] => [[]]
  | x :: xs =>
    let r := splitOnChar c xs
    if x = c then [] :: r
    else
      match r with
      | [] => [[x]]
      | y :: ys => (x :: y) :: ys

/-- Python `url.split('/')[-1]` (`split` always returns a non-empty list, so
indexing `[-1]` is the last piece). -/
def urlBasename (url : String) : String :=
  String.mk ((splitOnChar '/' url.data).getLastD [])

/-- Does `pat` occur as a contiguous sublist? Helper for `strContains`. -/
def containsSub (pat : List Char) : List Char → Bool
  | [] => pat.isEmpty
  | x :: xs => pat.isPrefixOf (x :: xs) || containsSub pat xs

/-- Python `pat in s` substring test. -/
def strContains (s pat : String) : Bool := containsSub pat.data s.data

/-! ## Python dict as an association list (insertion order kept,
value overwritten in place on key collision, lookup by key) -/

/-- `d[k] = v` on a Python dict: overwrite the value if the key is present,
otherwise append the new binding. -/
def dictInsert : List (String × String) → String → String → List (String × String)
  | [], k, v => [(k, v)]
  | (a, b) :: rest, k, v =>
    if a = k then (k, v) :: rest else (a, b) :: dictInsert rest k v

/-- `d.get(k)`: value of the first (unique, by construction) binding of `k`. -/
def dictLookup (d : List (String × String)) (k : String) : Option String :=
  (d.find? (fun p => p.1 == k)).map (fun p => p.2)

/-! ## `get_subreddits` (source lines 179-192)

`subreddits.json` is a dict mapping a folder path to the list of subreddits
stored there; the function inverts it into subreddit -> path, folder by
folder in iteration order, `update` overwriting earlier bindings. -/

/-- `get_subreddits`: fold the parsed config file (a list of
`(path, subreddit list)` entries in dict iteration order) into the inverted
subreddit -> path dict, via `subreddits.update(\x7bs: path for s in subs\x7d)`. -/
def get_subreddits (file : List (String × List String)) : List (String × String) :=
  file.foldl (fun acc e => e.2.foldl (fun a s => dictInsert a s e.1) acc) []

/-- Specification-side description of the expected lookup result: the folder
path of the last config entry whose subreddit list contains `s`. -/
def lastPathFor : List (String × List String) → String → Option String
  | [], _ => none
  | e :: rest, s =>
    match lastPathFor rest s with
    | some p => some p
    | none => if s ∈ e.2 then some e.1 else none

/-! ## Posts and the post filter (`parse_posts`, source lines 195-210) -/

/-- One reddit post, restricted (as in `get_posts`) to the five consumed
fields `('title', 'subreddit', 'url', 'domain', 'thumbnail')`. -/
structure Post where
  title : String
  subreddit : String
  url : String
  domain : String
  thumbnail : String
deriving DecidableEq

/-- A post that passed the filter, with the `download_path` field
`parse_posts` adds to the post dict. -/
structure AllowedPost where
  post : Post
  download_path : String
deriving DecidableEq

/-- `parse_posts(posts, subreddits)`: keep a post iff its subreddit is a key
of the inverted config dict and its thumbnail is not the `'self'` sentinel;
resolve `download_path = subreddits[subreddit]`. -/
def parse_posts (posts : List Post) (subreddits : List (String × String)) :
    List AllowedPost :=
  posts.filterMap (fun post =>
    match dictLookup subreddits post.subreddit with
    | some path => if post.thumbnail ≠ "self" then some ⟨post, path⟩ else none
    | none => none)

/-! ## `image_exists` (source lines 172-176) and `save_image`
(source lines 159-169)

The destination directory contents are modelled as the finite list of full
paths for which `os.path.isfile` is true; `image_exists` additionally gets
the oracle itself as a function, the way the discovery loop consumes it. -/

/-- `image_exists(url, download_path)`: is there already a file named after
the URL basename inside the destination folder? (`os.path.isfile` is the
oracle `isfile`; the source joins with a literal backslash.) -/
def image_exists (isfile : String → Bool) (url download_path : String) : Bool :=
  isfile (download_path ++ "\\" ++ urlBasename url)

/-- Length of the longest path in the (finite) filesystem listing. -/
def maxLen (fs : List String) : Nat := fs.foldr (fun s m => max s.length m) 0

/-- `k` copies of the `'_copy'` suffix appended by the collision loop. -/
def copies : Nat → String
  | 0 => ""
  | k + 1 => "_copy" ++ copies k

/-- The `while os.path.isfile(...): filename += '_copy'` loop of
`save_image`: keep appending `'_copy'` until the joined path is free.
Terminates because the filename strictly grows while every occupied path has
length at most `maxLen fs`. -/
def freeName (fs : List String) (download_path filename : String) : String :=
  if h : (download_path ++ "\\" ++ filename) ∈ fs then
    freeName fs download_path (filename ++ "_copy")
  else filename
termination_by maxLen fs + 1 - filename.length
decreasing_by
  have hle : (download_path ++ "\\" ++ filename).length ≤ maxLen fs := by
    induction fs with
    | nil => cases h
    | cons a l ih =>
      rcases List.mem_cons.mp h with h' | h'
      · subst h'; exact le_max_left _ _
      · exact le_trans (ih h') (le_max_right _ _)
  have hsep : ("\\" : String).length = 1 := rfl
  have hsuf : ("_copy" : String).length = 5 := rfl
  rw [String.length_append, String.length_append] at hle
  rw [String.length_append]
  omega

/-- `save_image(url, download_path)`: derive the filename from the URL, walk
the collision loop, then stream the download to the resulting path (the
write is modelled as appending the new path to the filesystem listing).
Returns the written path and the new listing. -/
def save_image (fs : List String) (url download_path : String) :
    String × List String :=
  let filename := freeName fs download_path (urlBasename url)
  (download_path ++ "\\" ++ filename,
   fs ++ [download_path ++ "\\" ++ filename])

/-! ## `RedditScraper.get_posts` (source lines 119-139) and
`get_next_page` (source lines 141-153) -/

/-- The consumed part of the listing JSON: `data.after` (null becomes
`none`) and the `data.children[*].data` records. -/
structure ListingData where
  after : Option String
  children : List Post
deriving DecidableEq

/-- One HTTP response to the listing fetch: the status code, and the parsed
JSON body or `none` when `response.json()` raises. -/
structure Response where
  status : Nat
  body : Option ListingData
deriving DecidableEq

/-- The exceptions `get_posts` can raise: `requests.HTTPError` from
`raise_for_status()` and `json.JSONDecodeError` from `response.json()`. -/
inductive RemoteError where
  | httpError (status : Nat)
  | jsonDecodeError
deriving DecidableEq

/-- `requests.Response.raise_for_status()` raises exactly for client and
server error codes, `400 <= status < 600`. -/
def raise_for_status (status : Nat) : Bool :=
  decide (400 ≤ status ∧ status < 600)

/-- `get_posts`: `raise_for_status()` first, then `response.json()`; on
success return the children records (restricted to the five consumed
fields, which is the identity on `Post`) together with the `after` cursor
used to build the next page URL. -/
def get_posts (resp : Response) : Except RemoteError (List Post × Option String) :=
  if raise_for_status resp.status then .error (.httpError resp.status)
  else
    match resp.body with
    | none => .error .jsonDecodeError
    | some d => .ok (d.children, d.after)

/-- `get_next_page(last_post_id)`: drop the last `/`-piece of the current
page URL and append `?count=25&after=<id>`; Python formats the cursor
`None` as the text `"None"`. The loop never inspects the cursor for
termination, it only feeds it back into the next URL. -/
def get_next_page (current_page : String) (last_post_id : Option String) : String :=
  String.intercalate "/"
    ((current_page.splitOn "/").dropLast ++
      ["?count=25&after=" ++ (match last_post_id with | none => "None" | some s => s)])

/-! ## Album expansion (`App.get_imgur_links`, source lines 246-257) and the
per-page enqueue loop (body of `App.grab_links`, source lines 232-241) -/

/-- A queued download unit: `(url, download_path, subreddit)`. -/
abbrev DlTask := String × String × String

/-- The exception escaping `get_imgur_links` when the album page fetch or
the HTML parse raises (the source has no guard around either). -/
inductive ExpansionError where
  | fetchOrParseFailed
deriving DecidableEq

/-- `'imgur' in post['domain'] and not ('.jpeg' in post['url'] or '.png' in
post['url'])`: the condition under which `grab_links` calls
`get_imgur_links`. -/
def isAlbumPost (p : Post) : Bool :=
  strContains p.domain "imgur" &&
    !(strContains p.url ".jpeg" || strContains p.url ".png")

/-- `get_imgur_links(post)`: fetch the album page, take every
`//a[@class='zoom']/@href` anchor and enqueue `'http:' + link` for each;
`album` yields the anchor list, or `none` when the fetch or parse raises. -/
def expandAlbum (album : String → Option (List String)) (ap : AllowedPost) :
    Option (List DlTask) :=
  (album ap.post.url).map (fun links =>
    links.map (fun link => ("http:" ++ link, ap.download_path, ap.post.subreddit)))

/-- The expansion tasks contributed by one post: `get_imgur_links` when the
album condition holds, nothing otherwise; `none` when the unguarded album
fetch raises. -/
def expandStep (album : String → Option (List String)) (ap : AllowedPost) :
    Option (List DlTask) :=
  if isAlbumPost ap.post then expandAlbum album ap else some []

/-- Everything one post puts on the download queue when it is processed
without an existence hit: its expansion tasks followed by the task for the
post's own URL (line 241 runs unconditionally, album or not). -/
def taskList (album : String → Option (List String)) (ap : AllowedPost) :
    List DlTask :=
  (expandStep album ap).getD [] ++ [(ap.post.url, ap.download_path, ap.post.subreddit)]

/-- `taskList` summed over a run of posts. -/
def tasksOfPre (album : String → Option (List String)) :
    List AllowedPost → List DlTask
  | [] => []
  | ap :: rest => taskList album ap ++ tasksOfPre album rest

/-- The `for post in posts` body of `grab_links`: stop (with
`found_existing = True`) at the first post whose target file already exists,
otherwise enqueue the expansion tasks and the post's own task and continue.
Returns the tasks enqueued from this page and the `found_existing` flag, or
the exception escaping an album expansion. -/
def processPosts (isfile : String → Bool) (album : String → Option (List String)) :
    List AllowedPost → Except ExpansionError (List DlTask × Bool)
  | [] => .ok ([], false)
  | ap :: rest =>
    if image_exists isfile ap.post.url ap.download_path then .ok ([], true)
    else
      match expandStep album ap with
      | none => .error .fetchOrParseFailed
      | some ex =>
        match processPosts isfile album rest with
        | .error e => .error e
        | .ok (ts, found) =>
          .ok (ex ++ (ap.post.url, ap.download_path, ap.post.subreddit) :: ts, found)

/-! ## The discovery loop (`App.grab_links`, source lines 221-243) -/

/-- Any exception escaping the discovery loop: from `get_posts` or from an
album expansion. -/
inductive RunError where
  | remote (e : RemoteError)
  | expansion (e : ExpansionError)
deriving DecidableEq

/-- Observable outcome of running `grab_links` for a bounded number of
iterations: the loop exited with `found_existing` (`stopped`), an exception
escaped (`raised`), or the fuel ran out with the loop still iterating
(`running`). The second component counts the pages fetched. -/
inductive Discovery where
  | stopped (tasks : List DlTask) (pagesFetched : Nat)
  | raised (tasks : List DlTask) (pagesFetched : Nat) (e : RunError)
  | running (tasks : List DlTask) (pagesFetched : Nat)
deriving DecidableEq

/-- The ambient world of a discovery run: the inverted config dict, the
listing response served for the n-th fetch, the album-page anchors (or
`none` for a raising fetch/parse), and the `os.path.isfile` oracle.
Indexing fetches by count abstracts the URL-building of
`get_next_page`; the source inspects nothing of the cursor either. -/
structure Env where
  subreddits : List (String × String)
  pages : Nat → Response
  album : String → Option (List String)
  isfile : String → Bool

/-- The `while not found_existing` loop of `grab_links`, one fuel unit per
iteration: fetch the next page (`get_posts`), filter it (`parse_posts`),
run the enqueue body (`processPosts`); stop when `found_existing` was set,
propagate any exception, otherwise continue with `page += 1`. -/
def grab_links_loop (env : Env) : Nat → Nat → List DlTask → Discovery
  | 0, page, acc => .running acc page
  | fuel + 1, page, acc =>
    match get_posts (env.pages page) with
    | .error e => .raised acc page (.remote e)
    | .ok (posts, _) =>
      match processPosts env.isfile env.album (parse_posts posts env.subreddits) with
      | .error e => .raised acc page (.expansion e)
      | .ok (ts, found) =>
        if found then .stopped (acc ++ ts) (page + 1)
        else grab_links_loop env fuel (page + 1) (acc ++ ts)

/-- `grab_links()` observed for `fuel` iterations, starting at page 0 with
an empty queue. -/
def grab_links (env : Env) (fuel : Nat) : Discovery :=
  grab_links_loop env fuel 0 []

/-- The net effect of one loop iteration on page `q`: the tasks it enqueues
and the `found_existing` flag, or the escaping exception. -/
def pageRes (env : Env) (q : Nat) : Except RunError (List DlTask × Bool) :=
  match get_posts (env.pages q) with
  | .error e => .error (.remote e)
  | .ok (posts, _) =>
    match processPosts env.isfile env.album (parse_posts posts env.subreddits) with
    | .error e => .error (.expansion e)
    | .ok r => .ok r

/-- Concatenation of the per-page task lists of pages `0 .. p-1`. -/
def catTasks (tss : Nat → List DlTask) : Nat → List DlTask
  | 0 => []
  | p + 1 => catTasks tss p ++ tss p

/-! ## The download phase (`DownloadWorker.run`, source lines 74-85, and the
reporting loop of `App.run`, source lines 266-288) as an interleaving
system -/

/-- Control location of one worker thread inside `DownloadWorker.run`:
about to evaluate `while not self.queue.empty()`, about to call the
blocking `self.queue.get()`, or returned from `run` (the thread is then no
longer alive). -/
inductive WPhase where
  | atCheck
  | atGet
  | exited
deriving DecidableEq

/-- Control location of the main thread in the reporting loop of
`App.run`: about to evaluate `while self.workers_alive()`, about to call
the blocking `self.status_queue.get()`, or past the loop (`Done`). -/
inductive APhase where
  | atLoop
  | atGet
  | done
deriving DecidableEq

/-- A completion event `(url, subreddit, succeeded)` as put on
`status_queue` (`'Success'`/`'Failed'` as a Bool). -/
abbrev DlResult := String × String × Bool

/-- The event a worker emits for task `t`: the try/except around
`save_image` classifies the outcome via the `save` oracle, never
propagating the exception. -/
def resultOf (save : String → String → Bool) (t : DlTask) : DlResult :=
  (t.1, t.2.2, save t.1 t.2.1)

/-- Shared state after `start_workers()`: the download queue, the status
queue, the phase of every worker thread, the phase of the reporting loop,
and the results printed so far. -/
structure SysState where
  tasks : List DlTask
  results : List DlResult
  workers : List WPhase
  agg : APhase
  reported : List DlResult
deriving DecidableEq

/-- One atomic action of the download phase, any interleaving allowed.
Worker `i` can pass the `queue.empty()` test only while the queue is
non-empty (and is then committed to `queue.get()`), exits its loop when
the test sees an empty queue, and `queue.get()` returns only when a task
is available (a blocked `get` simply has no step, matching the blocking
call); getting a task, downloading and putting the completion event is one
step. The reporting loop's `workers_alive()` test picks the `atLoop`
branch by thread liveness, and its `status_queue.get()` similarly blocks
on an empty queue. -/
inductive Step (save : String → String → Bool) : SysState → SysState → Prop where
  | workerCheckNonempty (s : SysState) (i : Nat) :
      s.workers[i]? = some .atCheck → s.tasks ≠ [] →
      Step save s { s with workers := s.workers.set i .atGet }
  | workerCheckEmpty (s : SysState) (i : Nat) :
      s.workers[i]? = some .atCheck → s.tasks = [] →
      Step save s { s with workers := s.workers.set i .exited }
  | workerGet (s : SysState) (i : Nat) (t : DlTask) (rest : List DlTask) :
      s.workers[i]? = some .atGet → s.tasks = t :: rest →
      Step save s { s with
        tasks := rest,
        results := s.results ++ [resultOf save t],
        workers := s.workers.set i .atCheck }
  | aggCheckAlive (s : SysState) (w : WPhase) :
      s.agg = .atLoop → w ∈ s.workers → w ≠ .exited →
      Step save s { s with agg := .atGet }
  | aggCheckDead (s : SysState) :
      s.agg = .atLoop → (∀ w ∈ s.workers, w = .exited) →
      Step save s { s with agg := .done }
  | aggGet (s : SysState) (r : DlResult) (rest : List DlResult) :
      s.agg = .atGet → s.results = r :: rest →
      Step save s { s with
        results := rest,
        reported := s.reported ++ [r],
        agg := .atLoop }

/-- Zero or more interleaved steps. -/
def Reachable (save : String → String → Bool) : SysState → SysState → Prop :=
  Relation.ReflTransGen (Step save)

/-! ## Concrete scenarios used by witnesses and counterexamples -/

/-- A download oracle for which every `save_image` call succeeds. -/
def saveOk : String → String → Bool := fun _ _ => true

/-- A single queued task. -/
def task0 : DlTask := ("http://x/a.png", "d", "pics")

/-- The completion event for `task0` under `saveOk`. -/
def res0 : DlResult := resultOf saveOk task0

/-- Pool state right after `start_workers()` with `NUM_WORKERS = 4` and one
task left in the queue. -/
def initPool : SysState :=
  ⟨[task0], [], [.atCheck, .atCheck, .atCheck, .atCheck], .atLoop, []⟩

/-- State after all four workers pass the `queue.empty()` test, worker 0
takes the only task and exits: workers 1-3 are committed to `queue.get()`
on an empty queue. -/
def stuckPool : SysState :=
  ⟨[], [res0], [.exited, .atGet, .atGet, .atGet], .atLoop, []⟩

/-- Pool state right after `start_workers()` for the aggregator scenario:
one task, four workers, reporting loop not yet entered. -/
def initAgg : SysState :=
  ⟨[task0], [], [.atCheck, .atCheck, .atCheck, .atCheck], .atLoop, []⟩

/-- State after the whole download phase ran before the main thread's first
`workers_alive()` test: all workers exited, the single completion event
still queued, the reporting loop exited without printing anything. -/
def finalAgg : SysState :=
  ⟨[], [res0], [.exited, .exited, .exited, .exited], .done, []⟩

/-- A post from a plain image host (no album expansion). -/
def post0 : Post := ⟨"t0", "pics", "http://x/a.png", "x.com", "th"⟩

/-- Second-page post processed before the detection point. -/
def post1 : Post := ⟨"t1", "pics", "http://x/b.png", "x.com", "th"⟩

/-- Second-page post whose target file already exists on disk. -/
def hitPost : Post := ⟨"t2", "pics", "http://x/c.png", "x.com", "th"⟩

/-- Second-page post after the detection point. -/
def afterPost : Post := ⟨"t3", "pics", "http://x/e.png", "x.com", "th"⟩

/-- Discovery environment for the stop-condition witness: page 0 has one
fresh post, page 1 hits an existing file at its second post, and only
`d\c.png` exists on disk. -/
def env3 : Env :=
  ⟨[("pics", "d")],
   fun q => if q = 0 then ⟨200, some ⟨some "c0", [post0]⟩⟩
            else ⟨200, some ⟨none, [post1, hitPost, afterPost]⟩⟩,
   fun _ => some [],
   fun p => p == "d" ++ "\\" ++ "c.png"⟩

/-- Per-page tasks of `env3` before the detection page. -/
def tss3 : Nat → List DlTask := fun _ => [("http://x/a.png", "d", "pics")]

/-- The posts of page 1 of `env3` before the detection point. -/
def pre3 : List AllowedPost := [⟨post1, "d"⟩]

/-- The detection-point post of `env3`, with its resolved destination. -/
def hit3 : AllowedPost := ⟨hitPost, "d"⟩

/-- The page-1 posts of `env3` after the detection point. -/
def rest3 : List AllowedPost := [⟨afterPost, "d"⟩]

/-- An imgur album post (domain contains `imgur`, URL has no direct-image
extension). -/
def albumPost : Post := ⟨"t", "pics", "http://imgur.com/a/xyz", "imgur.com", "th"⟩

/-- `albumPost` after the filter. -/
def ap4 : AllowedPost := ⟨albumPost, "d"⟩

/-- Album page with two qualifying `class='zoom'` anchors (protocol-less
hrefs, as on imgur). -/
def alb4 : String → Option (List String) :=
  fun _ => some ["//i.imgur.com/q.png", "//i.imgur.com/w.png"]

/-- Discovery environment whose first page has one imgur album post and
whose album-page fetch raises. -/
def env5 : Env :=
  ⟨[("pics", "d")],
   fun _ => ⟨200, some ⟨none, [albumPost]⟩⟩,
   fun _ => none,
   fun _ => false⟩

/-- Discovery environment whose every listing page is well-formed but
contains zero posts (exhausted history), with an empty destination
folder. -/
def env8 : Env :=
  ⟨[("pics", "d")],
   fun _ => ⟨200, some ⟨none, []⟩⟩,
   fun _ => some [],
   fun _ => false⟩

/-- Discovery environment whose page 0 is fine and whose page 1 answers
HTTP 500. -/
def env9 : Env :=
  ⟨[("pics", "d")],
   fun q => if q = 0 then ⟨200, some ⟨some "c0", [post0]⟩⟩ else ⟨500, none⟩,
   fun _ => some [],
   fun _ => false⟩

/-- Category config with the subreddit `b` listed under two folders. -/
def file10 : List (String × List String) := [("d1", ["a", "b"]), ("d2", ["b"])]

/-- A text-only post: allowed subreddit but thumbnail sentinel `'self'`. -/
def selfPost : Post := ⟨"ts", "pics", "http://x/s.png", "x.com", "self"⟩

/-- A post whose subreddit is not a key of the CategoryMap. -/
def badCatPost : Post := ⟨"tb", "cats", "http://x/t.png", "x.com", "th"⟩

/-- Destination folder already holding `a.png` and `a.png_copy`. -/
def fs7 : List String := ["d\\a.png", "d\\a.png_copy"]

/-! # Theorems -/

/-! ## Dict lemmas and C10 -/

/-- `find?` after a single dict insertion. -/
theorem find?_dictInsert (d : List (String × String)) (k v k' : String) :
    (dictInsert d k v).find? (fun p => p.1 == k') =
      if k' = k then some (k, v) else d.find? (fun p => p.1 == k') := by
  induction d with
  | nil =>
    by_cases hk : k' = k
    · subst hk
      simp [dictInsert, List.find?, beq_self_eq_true]
    · have h1 : (k == k') = false := beq_eq_false_iff_ne.mpr (fun h => hk h.symm)
      simp [dictInsert, List.find?, h1, hk]
  | cons p rest ih =>
    obtain ⟨a, b⟩ := p
    by_cases hak : a = k
    · subst hak
      by_cases hk : k' = a
      · subst hk
        simp [dictInsert, List.find?, beq_self_eq_true]
      · have h1 : (a == k') = false := beq_eq_false_iff_ne.mpr (fun h => hk h.symm)
        simp [dictInsert, List.find?, h1, hk]
    · by_cases hk' : k' = a
      · subst hk'
        simp [dictInsert, hak, List.find?, beq_self_eq_true]
      · have h1 : (a == k') = false := beq_eq_false_iff_ne.mpr (fun h => hk' h.symm)
        simp [dictInsert, hak, List.find?, h1, ih]

/-- Lookup after a single dict insertion. -/
theorem dictLookup_dictInsert (d : List (String × String)) (k v k' : String) :
    dictLookup (dictInsert d k v) k' = if k' = k then some v else dictLookup d k' := by
  rw [dictLookup, find?_dictInsert]
  by_cases hk : k' = k <;> simp [hk, dictLookup]

/-- Lookup after inserting every subreddit of one config entry. -/
theorem dictLookup_insertFold (subs : List String) (path : String)
    (acc : List (String × String)) (s : String) :
    dictLookup (subs.foldl (fun a x => dictInsert a x path) acc) s =
      if s ∈ subs then some path else dictLookup acc s := by
  induction subs generalizing acc with
  | nil => simp
  | cons x xs ih =>
    rw [List.foldl_cons, ih]
    by_cases hx : s = x
    · subst hx
      by_cases hmem : s ∈ xs <;> simp [hmem, dictLookup_dictInsert]
    · by_cases hmem : s ∈ xs <;>
        simp [hmem, hx, dictLookup_dictInsert]

/-- Lookup in the full `get_subreddits` fold, for an arbitrary starting
accumulator. -/
theorem dictLookup_get_subreddits_fold (file : List (String × List String))
    (acc : List (String × String)) (s : String) :
    dictLookup (file.foldl (fun acc e => e.2.foldl (fun a x => dictInsert a x e.1) acc) acc) s =
      match lastPathFor file s with
      | some p => some p
      | none => dictLookup acc s := by
  induction file generalizing acc with
  | nil => simp [lastPathFor]
  | cons e rest ih =>
    rw [List.foldl_cons, ih]
    cases hrest : lastPathFor rest s with
    | some p => simp [lastPathFor, hrest]
    | none =>
      by_cases hmem : s ∈ e.2 <;>
        simp [lastPathFor, hrest, hmem, dictLookup_insertFold]

/-- Claim C10: the loaded CategoryMap maps each listed subreddit to the
folder path of the last config entry listing it (later folders overwrite
earlier bindings), so every subreddit resolves to at most one destination;
subreddits listed nowhere are absent. -/
theorem get_subreddits_last_wins (file : List (String × List String)) (s : String) :
    dictLookup (get_subreddits file) s = lastPathFor file s := by
  rw [get_subreddits, dictLookup_get_subreddits_fold]
  cases lastPathFor file s <;> simp [dictLookup, List.find?]

/-- Witness for C10 on a concrete config: `b` is listed under both `d1`
and `d2` and resolves to the later folder `d2`; `a` resolves to `d1`. -/
theorem get_subreddits_last_wins_witness :
    dictLookup (get_subreddits file10) "b" = lastPathFor file10 "b" ∧
      lastPathFor file10 "b" = some "d2" ∧
      dictLookup (get_subreddits file10) "a" = some "d1" :=
  ⟨get_subreddits_last_wins file10 "b", by decide, by decide⟩

/-! ## The post filter: C6 -/

/-- Claim C6: `parse_posts` keeps exactly the posts whose subreddit is a key
of the CategoryMap and whose thumbnail is not the sentinel `'self'`; a kept
post carries destination `subreddits[subreddit]`, an excluded post yields
nothing. -/
theorem parse_posts_mem (posts : List Post) (subreddits : List (String × String))
    (ap : AllowedPost) :
    ap ∈ parse_posts posts subreddits ↔
      ap.post ∈ posts ∧
        dictLookup subreddits ap.post.subreddit = some ap.download_path ∧
        ap.post.thumbnail ≠ "self" := by
  rw [parse_posts, List.mem_filterMap]
  constructor
  · rintro ⟨post, hmem, hf⟩
    cases hlk : dictLookup subreddits post.subreddit with
    | none => rw [hlk] at hf; cases hf
    | some path =>
      rw [hlk] at hf
      change (if post.thumbnail ≠ "self" then some (⟨post, path⟩ : AllowedPost)
        else none) = some ap at hf
      by_cases hth : post.thumbnail ≠ "self"
      · rw [if_pos hth] at hf
        have : AllowedPost.mk post path = ap := Option.some.inj hf
        subst this
        exact ⟨hmem, hlk, hth⟩
      · rw [if_neg hth] at hf; cases hf
  · rintro ⟨hmem, hlk, hth⟩
    refine ⟨ap.post, hmem, ?_⟩
    rw [hlk]
    change (if ap.post.thumbnail ≠ "self" then some (⟨ap.post, ap.download_path⟩ : AllowedPost)
      else none) = some ap
    rw [if_pos hth]

/-- Witness for C6: concretely, the filter output of a page holding an
allowed post, a `'self'`-thumbnail post and a foreign-subreddit post is the
allowed post alone, and the characterization instantiates to it. -/
theorem parse_posts_mem_witness :
    parse_posts [post0, selfPost, badCatPost] [("pics", "d")] = [⟨post0, "d"⟩] ∧
      ((⟨post0, "d"⟩ : AllowedPost) ∈ parse_posts [post0, selfPost, badCatPost] [("pics", "d")] ↔
        (⟨post0, "d"⟩ : AllowedPost).post ∈ [post0, selfPost, badCatPost] ∧
          dictLookup [("pics", "d")] (⟨post0, "d"⟩ : AllowedPost).post.subreddit =
            some (⟨post0, "d"⟩ : AllowedPost).download_path ∧
          (⟨post0, "d"⟩ : AllowedPost).post.thumbnail ≠ "self") :=
  ⟨by decide, parse_posts_mem [post0, selfPost, badCatPost] [("pics", "d")] ⟨post0, "d"⟩⟩

/-! ## The filename collision loop: C7 -/

/-- The collision loop returns the first free name of the form
`filename + k * '_copy'`: every earlier candidate is an occupied path and
the result is free. -/
theorem freeName_spec (fs : List String) (dp fn : String) :
    ∃ k, freeName fs dp fn = fn ++ copies k ∧
      (∀ j, j < k → (dp ++ "\\" ++ (fn ++ copies j)) ∈ fs) ∧
      (dp ++ "\\" ++ (fn ++ copies k)) ∉ fs := by
  refine freeName.induct fs dp
    (fun x => ∃ k, freeName fs dp x = x ++ copies k ∧
      (∀ j, j < k → (dp ++ "\\" ++ (x ++ copies j)) ∈ fs) ∧
      (dp ++ "\\" ++ (x ++ copies k)) ∉ fs)
    (fun fn h ih => ?_) (fun fn h => ?_) fn
  · obtain ⟨k', he, hall, hfree⟩ := ih
    refine ⟨k' + 1, ?_, ?_, ?_⟩
    · rw [freeName, dif_pos h, he, String.append_assoc]
      rfl
    · intro j hj
      cases j with
      | zero =>
        have h0 : fn ++ copies 0 = fn := String.append_empty fn
        rw [h0]
        exact h
      | succ j' =>
        have hmem := hall j' (by omega)
        rw [String.append_assoc fn "_copy" (copies j')] at hmem
        exact hmem
    · have hassoc : (fn ++ "_copy") ++ copies k' = fn ++ copies (k' + 1) := by
        rw [String.append_assoc]
        rfl
      rw [hassoc] at hfree
      exact hfree
  · refine ⟨0, ?_, ?_, ?_⟩
    · rw [freeName, dif_neg h]
      exact (String.append_empty fn).symm
    · intro j hj
      exact absurd hj (Nat.not_lt_zero j)
    · have h0 : fn ++ copies 0 = fn := String.append_empty fn
      rw [h0]
      exact h

/-- Claim C7: when the filename derived from the URL already names an
existing file at the destination, `save_image` appends `'_copy'` suffixes,
re-checking existence each round, until a free name is found (every skipped
candidate was occupied), writes to that free path, and leaves every
pre-existing file in place. -/
theorem save_image_no_overwrite (fs : List String) (url dp : String)
    (h : (dp ++ "\\" ++ urlBasename url) ∈ fs) :
    ∃ k, 0 < k ∧
      (save_image fs url dp).1 = dp ++ "\\" ++ (urlBasename url ++ copies k) ∧
      (∀ j, j < k → (dp ++ "\\" ++ (urlBasename url ++ copies j)) ∈ fs) ∧
      (save_image fs url dp).1 ∉ fs ∧
      (save_image fs url dp).2 = fs ++ [(save_image fs url dp).1] := by
  obtain ⟨k, he, hall, hfree⟩ := freeName_spec fs dp (urlBasename url)
  have h1 : (save_image fs url dp).1 = dp ++ "\\" ++ (urlBasename url ++ copies k) := by
    show dp ++ "\\" ++ freeName fs dp (urlBasename url) = _
    rw [he]
  refine ⟨k, ?_, h1, hall, ?_, rfl⟩
  · rcases k with _ | k'
    · exfalso
      apply hfree
      have h0 : urlBasename url ++ copies 0 = urlBasename url := String.append_empty _
      rw [h0]
      exact h
    · omega
  · rw [h1]
    exact hfree

/-- Witness for C7: with `a.png` and `a.png_copy` both occupied, saving
another `a.png` resolves to a fresh name (`a.png_copy_copy`). -/
theorem save_image_no_overwrite_witness :
    (("d" ++ "\\" ++ urlBasename "http://x/a.png") ∈ fs7) ∧
    ∃ k, 0 < k ∧
      (save_image fs7 "http://x/a.png" "d").1 =
        "d" ++ "\\" ++ (urlBasename "http://x/a.png" ++ copies k) ∧
      (∀ j, j < k →
        ("d" ++ "\\" ++ (urlBasename "http://x/a.png" ++ copies j)) ∈ fs7) ∧
      (save_image fs7 "http://x/a.png" "d").1 ∉ fs7 ∧
      (save_image fs7 "http://x/a.png" "d").2 =
        fs7 ++ [(save_image fs7 "http://x/a.png" "d").1] :=
  ⟨by decide, save_image_no_overwrite fs7 "http://x/a.png" "d" (by decide)⟩

/-! ## Discovery loop lemmas -/

/-- One unfolding of the discovery loop, phrased through the per-page
outcome `pageRes`. -/
theorem grab_links_loop_succ (env : Env) (fuel page : Nat) (acc : List DlTask) :
    grab_links_loop env (fuel + 1) page acc =
      match pageRes env page with
      | .error e => .raised acc page e
      | .ok (ts, true) => .stopped (acc ++ ts) (page + 1)
      | .ok (ts, false) => grab_links_loop env fuel (page + 1) (acc ++ ts) := by
  cases hg : get_posts (env.pages page) with
  | error e => simp [grab_links_loop, pageRes, hg]
  | ok r =>
    obtain ⟨posts, aft⟩ := r
    cases hp : processPosts env.isfile env.album (parse_posts posts env.subreddits) with
    | error e => simp [grab_links_loop, pageRes, hg, hp]
    | ok r2 =>
      obtain ⟨ts, found⟩ := r2
      cases found <;> simp [grab_links_loop, pageRes, hg, hp]

/-- Reindexing of per-page task concatenation. -/
theorem catTasks_shift (tss : Nat → List DlTask) (p : Nat) :
    tss 0 ++ catTasks (fun q => tss (q + 1)) p = catTasks tss (p + 1) := by
  induction p with
  | zero => simp [catTasks]
  | succ p ih =>
    have h1 : catTasks (fun q => tss (q + 1)) (p + 1) =
        catTasks (fun q => tss (q + 1)) p ++ tss (p + 1) := rfl
    have h2 : catTasks tss (p + 1 + 1) = catTasks tss (p + 1) ++ tss (p + 1) := rfl
    rw [h1, h2, ← ih, List.append_assoc]

/-- Running the loop across `p` pages that all process without an existence
hit and without an exception: the loop advances to page `start + p`, having
appended exactly the per-page tasks. -/
theorem grab_links_loop_run (env : Env) (p : Nat) :
    ∀ (fuel start : Nat) (acc : List DlTask) (tss : Nat → List DlTask),
      p ≤ fuel →
      (∀ q, q < p → pageRes env (start + q) = .ok (tss q, false)) →
      grab_links_loop env fuel start acc =
        grab_links_loop env (fuel - p) (start + p) (acc ++ catTasks tss p) := by
  induction p with
  | zero =>
    intro fuel start acc tss hf hb
    simp [catTasks]
  | succ p ih =>
    intro fuel start acc tss hf hb
    cases fuel with
    | zero => omega
    | succ f =>
      rw [grab_links_loop_succ]
      have h0 : pageRes env start = .ok (tss 0, false) := by
        have h00 := hb 0 (by omega)
        rwa [Nat.add_zero] at h00
      rw [h0]
      show grab_links_loop env f (start + 1) (acc ++ tss 0) = _
      have hIH := ih f (start + 1) (acc ++ tss 0) (fun q => tss (q + 1)) (by omega)
        (fun q hq => by
          have hq1 := hb (q + 1) (by omega)
          have harith : start + 1 + q = start + (q + 1) := by omega
          rw [harith]
          exact hq1)
      have e1 : f + 1 - (p + 1) = f - p := by omega
      have e2 : start + (p + 1) = start + 1 + p := by omega
      have e3 : acc ++ catTasks tss (p + 1) =
          (acc ++ tss 0) ++ catTasks (fun q => tss (q + 1)) p := by
        rw [← catTasks_shift, ← List.append_assoc]
      rw [e1, e2, e3]
      exact hIH

/-- The per-page outcome only depends on the parts of the environment the
iteration consumes. -/
theorem pageRes_congr (env env' : Env) (q : Nat)
    (hsub : env'.subreddits = env.subreddits) (hisf : env'.isfile = env.isfile)
    (halb : env'.album = env.album) (hpg : env'.pages q = env.pages q) :
    pageRes env' q = pageRes env q := by
  rw [pageRes, pageRes, hsub, hisf, halb, hpg]

/-- The enqueue loop of a page whose filtered posts split as
`pre ++ hit :: rest`, with no existence hit and no expansion failure in
`pre` and an existence hit at `hit`: it enqueues exactly the tasks of
`pre`, sets `found_existing`, and touches neither `hit` nor `rest`. -/
theorem processPosts_detect (isfile : String → Bool)
    (album : String → Option (List String))
    (hit : AllowedPost) (rest : List AllowedPost)
    (hhit : image_exists isfile hit.post.url hit.download_path = true) :
    ∀ pre : List AllowedPost,
      (∀ a ∈ pre, image_exists isfile a.post.url a.download_path = false) →
      (∀ a ∈ pre, (expandStep album a).isSome) →
      processPosts isfile album (pre ++ hit :: rest) =
        .ok (tasksOfPre album pre, true) := by
  intro pre
  induction pre with
  | nil =>
    intro _ _
    simp [processPosts, hhit, tasksOfPre]
  | cons a pre ih =>
    intro h1 h2
    have ha1 : image_exists isfile a.post.url a.download_path = false :=
      h1 a (List.mem_cons_self a pre)
    have ha2 := h2 a (List.mem_cons_self a pre)
    obtain ⟨ex, hex⟩ := Option.isSome_iff_exists.mp ha2
    have hrec := ih (fun x hx => h1 x (List.mem_cons_of_mem a hx))
      (fun x hx => h2 x (List.mem_cons_of_mem a hx))
    rw [List.cons_append]
    simp [processPosts, ha1, hex, hrec, tasksOfPre, taskList]

/-! ## The discovery stop condition: C3 -/

/-- Claim C3: once the existence check hits a post whose target file is
already on disk (page `p`, after the prefix `pre` of that page's filtered
posts), discovery halts permanently with `found_existing`: for any
remaining fuel it returns `stopped` after exactly `p + 1` page fetches,
its queue holds only the tasks of pages before `p` plus the tasks of
`pre` (nothing from the detection point onwards), and the outcome is the
same under any environment that agrees on pages `0..p` — no later page is
ever consulted. -/
theorem grab_links_halts_on_existing
    (env : Env) (p : Nat) (tss : Nat → List DlTask)
    (posts : List Post) (aft : Option String)
    (pre : List AllowedPost) (hit : AllowedPost) (rest : List AllowedPost)
    (hb : ∀ q, q < p → pageRes env q = .ok (tss q, false))
    (hpage : get_posts (env.pages p) = .ok (posts, aft))
    (hsplit : parse_posts posts env.subreddits = pre ++ hit :: rest)
    (hpre1 : ∀ a ∈ pre, image_exists env.isfile a.post.url a.download_path = false)
    (hpre2 : ∀ a ∈ pre, (expandStep env.album a).isSome)
    (hhit : image_exists env.isfile hit.post.url hit.download_path = true) :
    ∀ fuel, p + 1 ≤ fuel → ∀ env' : Env,
      env'.subreddits = env.subreddits → env'.isfile = env.isfile →
      env'.album = env.album → (∀ q, q ≤ p → env'.pages q = env.pages q) →
      grab_links env' fuel =
        .stopped (catTasks tss p ++ tasksOfPre env.album pre) (p + 1) := by
  intro fuel hfuel env' hsub hisf halb hpgs
  have hbE : ∀ q, q < p → pageRes env' q = .ok (tss q, false) := fun q hq => by
    rw [pageRes_congr env env' q hsub hisf halb (hpgs q (by omega))]
    exact hb q hq
  have hrun := grab_links_loop_run env' p fuel 0 [] tss (by omega)
    (fun q hq => by rw [Nat.zero_add]; exact hbE q hq)
  rw [grab_links, hrun, Nat.zero_add, List.nil_append]
  have hpp : pageRes env' p = .ok (tasksOfPre env.album pre, true) := by
    rw [pageRes_congr env env' p hsub hisf halb (hpgs p (le_refl p))]
    simp only [pageRes, hpage]
    rw [hsplit, processPosts_detect env.isfile env.album hit rest hhit pre hpre1 hpre2]
  obtain ⟨f, hf⟩ : ∃ f, fuel - p = f + 1 := ⟨fuel - p - 1, by omega⟩
  rw [hf, grab_links_loop_succ, hpp]

/-- Witness for C3: in `env3`, page 0 yields one task, page 1 hits the
existing `d\c.png` at its second post; with any fuel left (here 3) and the
unchanged environment, discovery stops after exactly 2 fetches with the
page-0 task plus the one pre-detection task of page 1. -/
theorem grab_links_halts_on_existing_witness :
    pageRes env3 0 = .ok (tss3 0, false) ∧
      parse_posts [post1, hitPost, afterPost] env3.subreddits = pre3 ++ hit3 :: rest3 ∧
      image_exists env3.isfile hitPost.url "d" = true ∧
      grab_links env3 3 = .stopped (catTasks tss3 1 ++ tasksOfPre env3.album pre3) 2 :=
  ⟨by decide, by decide, by decide,
    grab_links_halts_on_existing env3 1 tss3 [post1, hitPost, afterPost] none
      pre3 hit3 rest3
      (fun q hq => by
        have hq0 : q = 0 := by omega
        subst hq0
        decide)
      (by decide) (by decide) (by decide) (by decide)
      (by decide) 3 (by omega) env3 rfl rfl rfl (fun q _ => rfl)⟩

/-! ## Album expansion: C4 (amended) and C5 -/

/-- Claim C4 counterexample: for the album post `ap4` with two qualifying
anchors, the enqueue loop emits three tasks — the two scheme-completed
anchor tasks and additionally one for the original album URL (line 241
runs unconditionally) — so it is false that exactly `n = 2` tasks are
enqueued with none for the album URL itself. -/
theorem imgur_album_keeps_original_url :
    isAlbumPost albumPost = true ∧
    alb4 albumPost.url = some ["//i.imgur.com/q.png", "//i.imgur.com/w.png"] ∧
    processPosts (fun _ => false) alb4 [ap4] =
      .ok ([("http://i.imgur.com/q.png", "d", "pics"),
            ("http://i.imgur.com/w.png", "d", "pics"),
            ("http://imgur.com/a/xyz", "d", "pics")], false) ∧
    ¬ ∃ ts : List DlTask,
        processPosts (fun _ => false) alb4 [ap4] = .ok (ts, false) ∧
        ts.length = 2 ∧ (albumPost.url, "d", "pics") ∉ ts := by
  refine ⟨by decide, by decide, by decide, ?_⟩
  rintro ⟨ts, hts, hlen, hmem⟩
  have heq : processPosts (fun _ => false) alb4 [ap4] =
      .ok ([("http://i.imgur.com/q.png", "d", "pics"),
            ("http://i.imgur.com/w.png", "d", "pics"),
            ("http://imgur.com/a/xyz", "d", "pics")], false) := by decide
  rw [heq] at hts
  injection hts with h
  have hts' : ts = [("http://i.imgur.com/q.png", "d", "pics"),
      ("http://i.imgur.com/w.png", "d", "pics"),
      ("http://imgur.com/a/xyz", "d", "pics")] :=
    (congrArg Prod.fst h).symm
  subst hts'
  exact absurd hlen (by decide)

/-- Claim C4 (amended): for an included album post (domain contains the
album marker, URL lacks a direct-image extension) whose album page holds
`n` qualifying anchors, the enqueue loop emits the `n` scheme-completed
anchor tasks followed by one task for the original album URL itself —
`n + 1` tasks in total. -/
theorem imgur_album_expansion_tasks
    (isfile : String → Bool) (album : String → Option (List String))
    (ap : AllowedPost) (links : List String)
    (hne : image_exists isfile ap.post.url ap.download_path = false)
    (halb : isAlbumPost ap.post = true)
    (hfetch : album ap.post.url = some links) :
    processPosts isfile album [ap] =
      .ok (links.map (fun l => ("http:" ++ l, ap.download_path, ap.post.subreddit)) ++
            [(ap.post.url, ap.download_path, ap.post.subreddit)], false) ∧
    (links.map (fun l => ("http:" ++ l, ap.download_path, ap.post.subreddit)) ++
      [(ap.post.url, ap.download_path, ap.post.subreddit)]).length = links.length + 1 := by
  constructor
  · simp [processPosts, hne, expandStep, halb, expandAlbum, hfetch]
  · simp

/-- Witness for the amended C4 at `ap4` with two anchors. -/
theorem imgur_album_expansion_tasks_witness :
    image_exists (fun _ => false) ap4.post.url ap4.download_path = false ∧
    isAlbumPost ap4.post = true ∧
    alb4 ap4.post.url = some ["//i.imgur.com/q.png", "//i.imgur.com/w.png"] ∧
    (processPosts (fun _ => false) alb4 [ap4] =
      .ok ((["//i.imgur.com/q.png", "//i.imgur.com/w.png"].map
              (fun l => ("http:" ++ l, ap4.download_path, ap4.post.subreddit))) ++
            [(ap4.post.url, ap4.download_path, ap4.post.subreddit)], false) ∧
    ((["//i.imgur.com/q.png", "//i.imgur.com/w.png"].map
        (fun l => ("http:" ++ l, ap4.download_path, ap4.post.subreddit))) ++
      [(ap4.post.url, ap4.download_path, ap4.post.subreddit)]).length =
        ["//i.imgur.com/q.png", "//i.imgur.com/w.png"].length + 1) :=
  ⟨by decide, by decide, by decide,
    imgur_album_expansion_tasks (fun _ => false) alb4 ap4
      ["//i.imgur.com/q.png", "//i.imgur.com/w.png"] (by decide) (by decide) (by decide)⟩

/-- Claim C5 (the code violates it): an album-page fetch failure is fatal.
`get_imgur_links` has no guard, so with the very first page holding one
album post whose album fetch raises, the exception escapes `grab_links`
after zero tasks — discovery, and with it the run, aborts instead of
skipping the post. -/
theorem expansion_failure_aborts :
    grab_links env5 5 = .raised [] 0 (.expansion .fetchOrParseFailed) := by decide

/-! ## Exhausted history: C8 -/

/-- Every page of `env8` processes to zero tasks and no stop flag. -/
theorem pageRes_env8 (q : Nat) : pageRes env8 q = .ok ([], false) := rfl

/-- `catTasks` of empty pages is empty. -/
theorem catTasks_empty (p : Nat) :
    catTasks (fun _ => ([] : List DlTask)) p = [] := by
  induction p with
  | zero => rfl
  | succ p ih =>
    show catTasks (fun _ => ([] : List DlTask)) p ++ [] = []
    rw [List.append_nil, ih]

/-- Claim C8 (the code violates it): a page with zero posts does not stop
discovery. `grab_links` has no empty-page check: in `env8`, whose every
listing page is well-formed with zero posts, after any number `fuel` of
iterations the loop is still running and has fetched `fuel` pages — it
never terminates at the empty page. -/
theorem empty_page_does_not_stop (fuel : Nat) :
    grab_links env8 fuel = .running [] fuel := by
  have hrun := grab_links_loop_run env8 fuel fuel 0 [] (fun _ => []) (le_refl fuel)
    (fun q _ => pageRes_env8 q)
  rw [grab_links, hrun, Nat.sub_self, Nat.zero_add, catTasks_empty, List.nil_append]
  rfl

/-! ## Listing fetch failure: C9 (amended) -/

/-- Claim C9 counterexample: `raise_for_status()` raises only for
`400 <= status < 600`, so the non-2xx status 304 with a parseable body
raises nothing — `get_posts` succeeds, discovery is not aborted. -/
theorem non2xx_status_not_raised :
    (304 < 200 ∨ 299 < 304) ∧
      get_posts ⟨304, some ⟨none, []⟩⟩ = .ok ([], none) :=
  ⟨by omega, by decide⟩

/-- Claim C9 (amended): a 4xx/5xx HTTP status or a malformed JSON body on
the listing fetch of page `p` raises a `RemoteError` that is neither
retried nor caught: after `p` clean pages the loop re-raises it and
discovery aborts right there, with only the tasks of the earlier pages
enqueued. -/
theorem remote_error_aborts
    (env : Env) (p : Nat) (tss : Nat → List DlTask) (fuel : Nat)
    (hb : ∀ q, q < p → pageRes env q = .ok (tss q, false))
    (herr : (400 ≤ (env.pages p).status ∧ (env.pages p).status < 600) ∨
      (env.pages p).body = none)
    (hfuel : p < fuel) :
    ∃ e : RemoteError, get_posts (env.pages p) = .error e ∧
      grab_links env fuel = .raised (catTasks tss p) p (.remote e) := by
  have hget : ∃ e : RemoteError, get_posts (env.pages p) = .error e := by
    by_cases hrs : raise_for_status (env.pages p).status = true
    · exact ⟨.httpError (env.pages p).status, by rw [get_posts, if_pos hrs]⟩
    · have hbody : (env.pages p).body = none := by
        rcases herr with h4 | hb2
        · exact absurd (by rw [raise_for_status]; exact decide_eq_true h4) hrs
        · exact hb2
      exact ⟨.jsonDecodeError, by rw [get_posts, if_neg hrs, hbody]⟩
  obtain ⟨e, he⟩ := hget
  refine ⟨e, he, ?_⟩
  have hrun := grab_links_loop_run env p fuel 0 [] tss (by omega)
    (fun q hq => by rw [Nat.zero_add]; exact hb q hq)
  rw [grab_links, hrun, Nat.zero_add, List.nil_append]
  obtain ⟨f, hf⟩ : ∃ f, fuel - p = f + 1 := ⟨fuel - p - 1, by omega⟩
  have hpr : pageRes env p = .error (.remote e) := by rw [pageRes, he]
  rw [hf, grab_links_loop_succ, hpr]

/-- Witness for the amended C9: in `env9`, page 0 is clean and page 1
answers HTTP 500; discovery aborts after the second fetch with only the
page-0 task enqueued. -/
theorem remote_error_aborts_witness :
    ((400 ≤ (env9.pages 1).status ∧ (env9.pages 1).status < 600) ∨
      (env9.pages 1).body = none) ∧
    ∃ e : RemoteError, get_posts (env9.pages 1) = .error e ∧
      grab_links env9 3 = .raised (catTasks tss3 1) 1 (.remote e) :=
  ⟨by decide,
    remote_error_aborts env9 1 tss3 3
      (fun q hq => by
        have hq0 : q = 0 := by omega
        subst hq0
        decide)
      (by decide) (by omega)⟩

/-! ## Worker termination: C1 -/

/-- Claim C1 (the code violates it): with one task left and four workers,
every worker can pass the `while not self.queue.empty()` test before any
calls `queue.get()`; worker 0 then takes the task and exits, and workers
1-3 are committed to `queue.get()` on an empty, producer-less queue: the
state `stuckPool` is reachable, and in every continuation from it worker 1
is still inside `queue.get()` — it never observes that no more work is
coming and never terminates its loop. -/
theorem worker_blocks_forever :
    Reachable saveOk initPool stuckPool ∧
    ∀ s', Reachable saveOk stuckPool s' → s'.workers[1]? = some WPhase.atGet := by
  constructor
  · exact
      Relation.ReflTransGen.head (Step.workerCheckNonempty initPool 0 rfl (by decide))
        (Relation.ReflTransGen.head (Step.workerCheckNonempty _ 1 rfl (by decide))
          (Relation.ReflTransGen.head (Step.workerCheckNonempty _ 2 rfl (by decide))
            (Relation.ReflTransGen.head (Step.workerCheckNonempty _ 3 rfl (by decide))
              (Relation.ReflTransGen.head (Step.workerGet _ 0 task0 [] rfl rfl)
                (Relation.ReflTransGen.head (Step.workerCheckEmpty _ 0 rfl rfl)
                  Relation.ReflTransGen.refl)))))
  · have inv : ∀ s', Reachable saveOk stuckPool s' →
        s'.tasks = [] ∧ s'.workers[1]? = some WPhase.atGet := by
      intro s' h
      induction h with
      | refl => exact ⟨rfl, rfl⟩
      | tail hab hbc ih =>
        obtain ⟨h1, h2⟩ := ih
        cases hbc with
        | workerCheckNonempty i hw hne => exact absurd h1 hne
        | workerCheckEmpty i hw he =>
          refine ⟨h1, ?_⟩
          have hne1 : i ≠ 1 := by
            intro hi
            subst hi
            rw [h2] at hw
            exact absurd hw (by decide)
          simp only [List.getElem?_set_ne hne1]
          exact h2
        | workerGet i t rest hw ht =>
          rw [h1] at ht
          cases ht
        | aggCheckAlive w ha hmem hne => exact ⟨h1, h2⟩
        | aggCheckDead ha hall => exact ⟨h1, h2⟩
        | aggGet r rest ha hr => exact ⟨h1, h2⟩
    exact fun s' h => (inv s' h).2

/-! ## Aggregator termination: C2 -/

/-- Claim C2 (the code violates it): with `K = 1` task and four workers,
the whole download phase can run before the main thread's first
`workers_alive()` test; all workers are then dead, so the reporting loop
of `App.run` exits immediately: the run terminates (`finalAgg` is
terminal) with the single completion event still queued and zero of the
`K = 1` results reported. -/
theorem aggregator_exits_with_unreported_results :
    Reachable saveOk initAgg finalAgg ∧
    initAgg.tasks.length = 1 ∧
    finalAgg.agg = APhase.done ∧
    finalAgg.reported = [] ∧
    finalAgg.results ≠ [] ∧
    ∀ s', ¬ Step saveOk finalAgg s' := by
  refine ⟨?_, rfl, rfl, rfl, by decide, ?_⟩
  · exact
      Relation.ReflTransGen.head (Step.workerCheckNonempty initAgg 0 rfl (by decide))
        (Relation.ReflTransGen.head (Step.workerGet _ 0 task0 [] rfl rfl)
          (Relation.ReflTransGen.head (Step.workerCheckEmpty _ 0 rfl rfl)
            (Relation.ReflTransGen.head (Step.workerCheckEmpty _ 1 rfl rfl)
              (Relation.ReflTransGen.head (Step.workerCheckEmpty _ 2 rfl rfl)
                (Relation.ReflTransGen.head (Step.workerCheckEmpty _ 3 rfl rfl)
                  (Relation.ReflTransGen.head (Step.aggCheckDead _ rfl (by decide))
                    Relation.ReflTransGen.refl))))))
  · have hwk : ∀ (i : Nat) (w : WPhase),
        finalAgg.workers[i]? = some w → w = WPhase.exited := by
      intro i w hw
      rcases i with _ | _ | _ | _ | i
      · exact (Option.some.inj hw).symm
      · exact (Option.some.inj hw).symm
      · exact (Option.some.inj hw).symm
      · exact (Option.some.inj hw).symm
      · exact Option.noConfusion hw
    intro s' hstep
    cases hstep with
    | workerCheckNonempty i hw hne => exact absurd (hwk i _ hw) (by decide)
    | workerCheckEmpty i hw he => exact absurd (hwk i _ hw) (by decide)
    | workerGet i t rest hw ht => exact absurd (hwk i _ hw) (by decide)
    | aggCheckAlive w ha hmem hne => exact absurd ha (by decide)
    | aggCheckDead ha hall => exact absurd ha (by decide)
    | aggGet r rest ha hr => exact absurd ha (by decide)
